import Mathlib

/-!
Shallow embedding of `locate-cargo-manifest` (src/lib.rs).

The crate exports a single function

  pub fn locate_manifest() -> Result<PathBuf, LocateManifestError>

which reads the `CARGO` environment variable (falling back to `"cargo"`
when `env::var` errors, i.e. when the variable is absent or not unicode),
runs `<cargo> locate-project` capturing stdout/stderr/exit status, and then
checks, in order: exit status, UTF-8 validity of stdout, JSON validity of
the decoded text, and presence of a string `root` field.

We model:
 * the environment as a function `String → Option String` (the `env::var`
   result; `none` stands for `Err(VarError)`, i.e. absent or non-unicode);
 * the behaviour of the external process as a function
   `run : String → List String → Except IoError Output`, where `Output`
   mirrors `std::process::Output` (success flag, stdout bytes, stderr bytes);
 * bytes as `List Nat` (each < 256 in the intended use);
 * `String::from_utf8` as a strict UTF-8 decoder (rejecting overlong forms,
   surrogates and code points above 0x10FFFF, exactly as Rust does), whose
   error value retains the original byte vector as Rust's `FromUtf8Error`
   does (`into_bytes`);
 * the `json` crate's `json::parse`, `JsonValue` indexing by `&str`
   (which yields `Null` on non-objects and missing keys) and
   `JsonValue::as_str` (which yields `Some` exactly on string values).
   Error positions (line/column) and the crate's short-string optimisation
   are abstracted away; JSON numbers are kept as their raw token text since
   no consumer of this model inspects numeric values.
-/

/-- An opaque stand-in for `std::io::Error` (only its identity matters). -/
structure IoError where
  code : Nat
deriving DecidableEq, Repr

/-- Mirror of `std::process::Output`: `status.success()`, stdout, stderr. -/
structure Output where
  success : Bool
  stdout : List Nat
  stderr : List Nat
deriving DecidableEq, Repr

/-- Mirror of `std::string::FromUtf8Error`: it retains the original bytes
(recoverable through `into_bytes`/`as_bytes`). -/
structure FromUtf8Error where
  bytes : List Nat
deriving DecidableEq, Repr

/-- Model of the `json` crate's `json::Error` (positions abstracted away). -/
inductive JsonError where
  | UnexpectedCharacter (c : Char)
  | UnexpectedEndOfJson
deriving DecidableEq, Repr

/-- Model of the `json` crate's `JsonValue`. Numbers keep their raw token
text; the crate's `Short`/`String` split is collapsed into `Str`. -/
inductive JsonValue where
  | Null
  | Boolean (b : Bool)
  | Number (raw : String)
  | Str (s : String)
  | Arr (xs : List JsonValue)
  | Object (ms : List (String × JsonValue))

/-- Strict UTF-8 decoding of a byte list, as `String::from_utf8` validates:
ASCII, 2–4 byte sequences with overlong/surrogate/range checks. `fuel`
bounds the recursion; each step consumes at least one byte, so
`bytes.length + 1` fuel always suffices. -/
def utf8DecodeAux : Nat → List Nat → Option (List Char)
  | 0, [] => some []
  | 0, _ :: _ => none
  | _ + 1, [] => some []
  | fuel + 1, b0 :: rest =>
    if b0 < 0x80 then
      (utf8DecodeAux fuel rest).map (Char.ofNat b0 :: ·)
    else if 0xC2 ≤ b0 ∧ b0 ≤ 0xDF then
      match rest with
      | b1 :: rest1 =>
        if 0x80 ≤ b1 ∧ b1 ≤ 0xBF then
          (utf8DecodeAux fuel rest1).map
            (Char.ofNat ((b0 - 0xC0) * 0x40 + (b1 - 0x80)) :: ·)
        else none
      | [] => none
    else if 0xE0 ≤ b0 ∧ b0 ≤ 0xEF then
      match rest with
      | b1 :: b2 :: rest2 =>
        let lo1 : Nat := if b0 = 0xE0 then 0xA0 else 0x80
        let hi1 : Nat := if b0 = 0xED then 0x9F else 0xBF
        if (lo1 ≤ b1 ∧ b1 ≤ hi1) ∧ (0x80 ≤ b2 ∧ b2 ≤ 0xBF) then
          (utf8DecodeAux fuel rest2).map
            (Char.ofNat ((b0 - 0xE0) * 0x1000 + (b1 - 0x80) * 0x40 + (b2 - 0x80)) :: ·)
        else none
      | _ => none
    else if 0xF0 ≤ b0 ∧ b0 ≤ 0xF4 then
      match rest with
      | b1 :: b2 :: b3 :: rest3 =>
        let lo1 : Nat := if b0 = 0xF0 then 0x90 else 0x80
        let hi1 : Nat := if b0 = 0xF4 then 0x8F else 0xBF
        if (lo1 ≤ b1 ∧ b1 ≤ hi1) ∧ (0x80 ≤ b2 ∧ b2 ≤ 0xBF) ∧ (0x80 ≤ b3 ∧ b3 ≤ 0xBF) then
          (utf8DecodeAux fuel rest3).map
            (Char.ofNat ((b0 - 0xF0) * 0x40000 + (b1 - 0x80) * 0x1000 +
              (b2 - 0x80) * 0x40 + (b3 - 0x80)) :: ·)
        else none
      | _ => none
    else none

/-- Decode a full byte list as strict UTF-8 (the validation performed by
`String::from_utf8`). -/
def utf8Decode (bs : List Nat) : Option String :=
  (utf8DecodeAux (bs.length + 1) bs).map List.asString

/-- Model of `String::from_utf8`: on failure the error retains the bytes. -/
def string_from_utf8 (bs : List Nat) : Except FromUtf8Error String :=
  match utf8Decode bs with
  | some s => .ok s
  | none => .error ⟨bs⟩

/-- JSON whitespace per the grammar (and the `json` crate): space, tab, LF, CR. -/
def isJsonWs (c : Char) : Bool :=
  c = ' ' ∨ c = '\t' ∨ c = '\n' ∨ c = '\r'

/-- Drop leading JSON whitespace. -/
def skipWs : List Char → List Char
  | [] => []
  | c :: cs => if isJsonWs c then skipWs cs else c :: cs

/-- Hexadecimal digit value, for `\uXXXX` escapes. -/
def hexVal (c : Char) : Option Nat :=
  if '0' ≤ c ∧ c ≤ '9' then some (c.toNat - '0'.toNat)
  else if 'a' ≤ c ∧ c ≤ 'f' then some (c.toNat - 'a'.toNat + 10)
  else if 'A' ≤ c ∧ c ≤ 'F' then some (c.toNat - 'A'.toNat + 10)
  else none

/-- Read four hex digits of a `\uXXXX` escape. -/
def readHex4 : List Char → Option (Nat × List Char)
  | c1 :: c2 :: c3 :: c4 :: rest =>
    match hexVal c1, hexVal c2, hexVal c3, hexVal c4 with
    | some h1, some h2, some h3, some h4 =>
      some (h1 * 0x1000 + h2 * 0x100 + h3 * 0x10 + h4, rest)
    | _, _, _, _ => none
  | _ => none

/-- Decode the body of a JSON string literal (after the opening quote),
handling the escape sequences the `json` crate accepts, including UTF-16
surrogate pairs in `\u` escapes. Returns the decoded content and the input
after the closing quote. -/
def parseStrBody : Nat → List Char → List Char → Except JsonError (String × List Char)
  | 0, _, _ => .error .UnexpectedEndOfJson
  | _ + 1, _, [] => .error .UnexpectedEndOfJson
  | fuel + 1, acc, c :: cs =>
    if c = '"' then .ok ((acc.reverse).asString, cs)
    else if c = '\\' then
      match cs with
      | [] => .error .UnexpectedEndOfJson
      | e :: cs1 =>
        if e = '"' then parseStrBody fuel ('"' :: acc) cs1
        else if e = '\\' then parseStrBody fuel ('\\' :: acc) cs1
        else if e = '/' then parseStrBody fuel ('/' :: acc) cs1
        else if e = 'b' then parseStrBody fuel (Char.ofNat 8 :: acc) cs1
        else if e = 'f' then parseStrBody fuel (Char.ofNat 12 :: acc) cs1
        else if e = 'n' then parseStrBody fuel ('\n' :: acc) cs1
        else if e = 'r' then parseStrBody fuel ('\r' :: acc) cs1
        else if e = 't' then parseStrBody fuel ('\t' :: acc) cs1
        else if e = 'u' then
          match readHex4 cs1 with
          | none => .error .UnexpectedEndOfJson
          | some (u, cs2) =>
            if 0xD800 ≤ u ∧ u ≤ 0xDBFF then
              match cs2 with
              | '\\' :: 'u' :: cs3 =>
                match readHex4 cs3 with
                | none => .error .UnexpectedEndOfJson
                | some (v, cs4) =>
                  if 0xDC00 ≤ v ∧ v ≤ 0xDFFF then
                    parseStrBody fuel
                      (Char.ofNat ((u - 0xD800) * 0x400 + (v - 0xDC00) + 0x10000) :: acc) cs4
                  else .error .UnexpectedEndOfJson
              | _ => .error .UnexpectedEndOfJson
            else if 0xDC00 ≤ u ∧ u ≤ 0xDFFF then .error .UnexpectedEndOfJson
            else parseStrBody fuel (Char.ofNat u :: acc) cs2
        else .error (.UnexpectedCharacter e)
    else if c.toNat < 0x20 then .error (.UnexpectedCharacter c)
    else parseStrBody fuel (c :: acc) cs

/-- Consume a run of decimal digits, returning them and the rest. -/
def takeDigits : List Char → (List Char × List Char)
  | [] => ([], [])
  | c :: cs =>
    if '0' ≤ c ∧ c ≤ '9' then
      let (ds, rest) := takeDigits cs
      (c :: ds, rest)
    else ([], c :: cs)

/-- Parse a JSON number token (sign, integer part with no leading zeros,
optional fraction, optional exponent), returning its raw text. -/
def parseNum (cs : List Char) : Except JsonError (String × List Char) :=
  let (sign, cs1) :=
    match cs with
    | '-' :: rest => (['-'], rest)
    | _ => (([] : List Char), cs)
  match cs1 with
  | [] => .error .UnexpectedEndOfJson
  | c :: _ =>
    if ¬('0' ≤ c ∧ c ≤ '9') then
      match cs1 with
      | [] => .error .UnexpectedEndOfJson
      | d :: _ => .error (.UnexpectedCharacter d)
    else
      let (intPart, cs2) :=
        if c = '0' then ([c], cs1.tail)
        else takeDigits cs1
      let fracRes : Except JsonError (List Char × List Char) :=
        match cs2 with
        | '.' :: cs3 =>
          match takeDigits cs3 with
          | ([], []) => .error .UnexpectedEndOfJson
          | ([], d :: _) => .error (.UnexpectedCharacter d)
          | (ds, rest) => .ok ('.' :: ds, rest)
        | _ => .ok ([], cs2)
      match fracRes with
      | .error e => .error e
      | .ok (fracPart, cs4) =>
        let expRes : Except JsonError (List Char × List Char) :=
          match cs4 with
          | e :: cs5 =>
            if e = 'e' ∨ e = 'E' then
              let (esign, cs6) :=
                match cs5 with
                | '+' :: r => (['+'], r)
                | '-' :: r => (['-'], r)
                | _ => (([] : List Char), cs5)
              match takeDigits cs6 with
              | ([], []) => .error .UnexpectedEndOfJson
              | ([], d :: _) => .error (.UnexpectedCharacter d)
              | (ds, rest) => .ok (e :: (esign ++ ds), rest)
            else .ok ([], e :: cs5)
          | [] => .ok ([], [])
        match expRes with
        | .error e => .error e
        | .ok (expPart, cs7) =>
          .ok ((sign ++ intPart ++ fracPart ++ expPart).asString, cs7)

/-- Insert a key/value pair into an object's member list, overwriting an
existing binding of the same key (the `json` crate's object insert). -/
def insertKV (ms : List (String × JsonValue)) (k : String) (v : JsonValue) :
    List (String × JsonValue) :=
  match ms with
  | [] => [(k, v)]
  | (k0, v0) :: rest =>
    if k0 = k then (k, v) :: rest
    else (k0, v0) :: insertKV rest k v

mutual

/-- Recursive-descent parse of one JSON value (leading whitespace already
skipped by callers). `fuel` bounds the mutual recursion; every recursive
call consumes at least one input character for every two fuel units, so the
generous fuel supplied by `json.parse` never runs out on any input. -/
def parseVal : Nat → List Char → Except JsonError (JsonValue × List Char)
  | 0, _ => .error .UnexpectedEndOfJson
  | _ + 1, [] => .error .UnexpectedEndOfJson
  | fuel + 1, c :: cs =>
    if c = '{' then
      match skipWs cs with
      | '}' :: rest => .ok (.Object [], rest)
      | other => parseObjItems fuel other []
    else if c = '[' then
      match skipWs cs with
      | ']' :: rest => .ok (.Arr [], rest)
      | other => parseArrItems fuel other []
    else if c = '"' then
      match parseStrBody (cs.length + 1) [] cs with
      | .error e => .error e
      | .ok (s, rest) => .ok (.Str s, rest)
    else if c = 't' then
      match cs with
      | 'r' :: 'u' :: 'e' :: rest => .ok (.Boolean true, rest)
      | _ => .error (.UnexpectedCharacter c)
    else if c = 'f' then
      match cs with
      | 'a' :: 'l' :: 's' :: 'e' :: rest => .ok (.Boolean false, rest)
      | _ => .error (.UnexpectedCharacter c)
    else if c = 'n' then
      match cs with
      | 'u' :: 'l' :: 'l' :: rest => .ok (.Null, rest)
      | _ => .error (.UnexpectedCharacter c)
    else if c = '-' ∨ ('0' ≤ c ∧ c ≤ '9') then
      match parseNum (c :: cs) with
      | .error e => .error e
      | .ok (raw, rest) => .ok (.Number raw, rest)
    else .error (.UnexpectedCharacter c)

/-- Parse the comma-separated items of a JSON array (after `[`, first item
pending, leading whitespace already skipped). -/
def parseArrItems : Nat → List Char → List JsonValue →
    Except JsonError (JsonValue × List Char)
  | 0, _, _ => .error .UnexpectedEndOfJson
  | fuel + 1, cs, acc =>
    match parseVal fuel cs with
    | .error e => .error e
    | .ok (v, rest) =>
      match skipWs rest with
      | ']' :: rest1 => .ok (.Arr (acc ++ [v]).reverse.reverse, rest1)
      | ',' :: rest1 => parseArrItems fuel (skipWs rest1) (acc ++ [v])
      | d :: _ => .error (.UnexpectedCharacter d)
      | [] => .error .UnexpectedEndOfJson

/-- Parse the comma-separated members of a JSON object (after `{`, first
member pending, leading whitespace already skipped). Duplicate keys
overwrite earlier bindings, as in the `json` crate. -/
def parseObjItems : Nat → List Char → List (String × JsonValue) →
    Except JsonError (JsonValue × List Char)
  | 0, _, _ => .error .UnexpectedEndOfJson
  | fuel + 1, cs, acc =>
    match cs with
    | '"' :: cs1 =>
      match parseStrBody (cs1.length + 1) [] cs1 with
      | .error e => .error e
      | .ok (k, rest) =>
        match skipWs rest with
        | ':' :: rest1 =>
          match parseVal fuel (skipWs rest1) with
          | .error e => .error e
          | .ok (v, rest2) =>
            let acc1 := insertKV acc k v
            match skipWs rest2 with
            | '}' :: rest3 => .ok (.Object acc1, rest3)
            | ',' :: rest3 => parseObjItems fuel (skipWs rest3) acc1
            | d :: _ => .error (.UnexpectedCharacter d)
            | [] => .error .UnexpectedEndOfJson
        | d :: _ => .error (.UnexpectedCharacter d)
        | [] => .error .UnexpectedEndOfJson
    | d :: _ => .error (.UnexpectedCharacter d)
    | [] => .error .UnexpectedEndOfJson

end

/-- Model of `json::parse`: parse one JSON value, requiring only trailing
whitespace after it. -/
def json.parse (s : String) : Except JsonError JsonValue :=
  match parseVal (4 * s.data.length + 16) (skipWs s.data) with
  | .error e => .error e
  | .ok (v, rest) =>
    match skipWs rest with
    | [] => .ok v
    | d :: _ => .error (.UnexpectedCharacter d)

/-- Model of the `json` crate's `impl Index<&str> for JsonValue`: member
lookup on objects, `Null` for a missing key or a non-object receiver. -/
def json_index (v : JsonValue) (key : String) : JsonValue :=
  match v with
  | .Object ms =>
    match ms.lookup key with
    | some w => w
    | none => .Null
  | _ => .Null

/-- Model of `JsonValue::as_str`: `Some` exactly on string values. -/
def JsonValue.as_str : JsonValue → Option String
  | .Str s => some s
  | _ => none

/-- Mirror of `LocateManifestError` (src/lib.rs, lines 37–52). -/
inductive LocateManifestError where
  | Io (err : IoError)
  | CargoExecution (stderr : List Nat)
  | StringConversion (err : FromUtf8Error)
  | ParseJson (err : JsonError)
  | NoRoot
deriving DecidableEq, Repr

/-- `env::var("CARGO").unwrap_or("cargo".to_owned())` (src/lib.rs, line 20):
the fallback applies exactly when `env::var` returned an error, i.e. when
the variable is absent (or not unicode) — an `Ok` value is used as-is,
even when it is the empty string. -/
def cargo_name (env : String → Option String) : String :=
  (env "CARGO").getD "cargo"

/-- The tail of `locate_manifest` after the subprocess ran (src/lib.rs,
lines 21–33): exit-status check, UTF-8 decoding of stdout, JSON parsing,
`root`-field extraction, in that order. `PathBuf::from(root)` is modelled
as the string `root` itself. -/
def process_result (res : Except IoError Output) :
    Except LocateManifestError String :=
  match res with
  | .error e => .error (.Io e)
  | .ok output =>
    if output.success = false then
      .error (.CargoExecution output.stderr)
    else
      match string_from_utf8 output.stdout with
      | .error e => .error (.StringConversion e)
      | .ok s =>
        match json.parse s with
        | .error e => .error (.ParseJson e)
        | .ok parsed =>
          match (json_index parsed "root").as_str with
          | none => .error .NoRoot
          | some root => .ok root

/-- Model of `locate_manifest` (src/lib.rs, lines 19–34), as a pure function
of the environment (`env::var`) and of the external processes' behaviour
(`run name args` is the `Output` of running `name` with `args`, or the
I/O error raised when spawning fails). -/
def locate_manifest (env : String → Option String)
    (run : String → List String → Except IoError Output) :
    Except LocateManifestError String :=
  process_result (run (cargo_name env) ["locate-project"])

/-- ASCII-string to byte-list helper for concrete test fixtures. -/
def strBytes (s : String) : List Nat := s.data.map Char.toNat

/-- An environment with no variables set. -/
def envNone : String → Option String := fun _ => none

/-- An environment in which `CARGO` is set to the empty string. -/
def envEmptyOverride : String → Option String :=
  fun n => if n = "CARGO" then some "" else none

/-- An environment in which `CARGO` names a stub executable. -/
def envStubOverride : String → Option String :=
  fun n => if n = "CARGO" then some "/opt/bin/cargo-stub" else none

/-- A tool whose stdout names `/from-default-cargo` when invoked as `cargo`
and `/from-empty-name` when invoked with the empty executable name. -/
def runDistinguishing : String → List String → Except IoError Output :=
  fun n _ =>
    if n = "cargo" then
      .ok ⟨true, strBytes "\x7b\"root\":\"/from-default-cargo\"\x7d", []⟩
    else if n = "" then
      .ok ⟨true, strBytes "\x7b\"root\":\"/from-empty-name\"\x7d", []⟩
    else .error ⟨1⟩

/-- The collaborator of property P1: exits 0 printing a `root` object. -/
def runP1 : String → List String → Except IoError Output :=
  fun _ _ => .ok ⟨true, strBytes "\x7b\"root\":\"/abs/path/Cargo.toml\"\x7d", []⟩

/-- The collaborator of property P2: exits with failure, diagnostic on stderr. -/
def runP2 : String → List String → Except IoError Output :=
  fun _ _ => .ok ⟨false, [], strBytes "error: could not find `Cargo.toml`"⟩

/-- A collaborator that exits 0 but prints invalid UTF-8. -/
def runBadUtf8 : String → List String → Except IoError Output :=
  fun _ _ => .ok ⟨true, [0xff, 0xfe], []⟩

/-- The collaborator of property P3: exits 0 printing `not json`. -/
def runP3 : String → List String → Except IoError Output :=
  fun _ _ => .ok ⟨true, strBytes "not json", []⟩

/-- The collaborator of property P5: exits 0 printing a non-string `root`. -/
def runP5 : String → List String → Except IoError Output :=
  fun _ _ => .ok ⟨true, strBytes "\x7b\"root\": 123\x7d", []⟩

/-- A collaborator that exits 0 printing the JSON number `42`. -/
def runNumber : String → List String → Except IoError Output :=
  fun _ _ => .ok ⟨true, strBytes "42", []⟩

/-- The stub of property P6: responds only at the overridden name. -/
def runStub : String → List String → Except IoError Output :=
  fun n _ =>
    if n = "/opt/bin/cargo-stub" then
      .ok ⟨true, strBytes "\x7b\"root\":\"/x/Cargo.toml\"\x7d", []⟩
    else .error ⟨7⟩

/-- A collaborator that fails with valid-UTF-8 stdout next to `runBadUtf8`:
same failure status and same stderr, different stdout. -/
def runFailStdoutA : String → List String → Except IoError Output :=
  fun _ _ => .ok ⟨false, strBytes "some valid stdout", strBytes "boom"⟩

/-- A collaborator that fails with invalid-UTF-8 stdout, same stderr as
`runFailStdoutA`. -/
def runFailStdoutB : String → List String → Except IoError Output :=
  fun _ _ => .ok ⟨false, [0xff], strBytes "boom"⟩

/-- C1: whenever the external tool runs, exits successfully, and prints a
JSON object whose `root` field is a string, `locate_manifest` returns `Ok`
with exactly that string's content as the path — no normalization,
trimming, existence check or canonicalization. -/
theorem locate_manifest_success_exact_root
    (env : String → Option String)
    (run : String → List String → Except IoError Output)
    (out : Output) (s r : String) (ms : List (String × JsonValue))
    (hrun : run (cargo_name env) ["locate-project"] = .ok out)
    (hsucc : out.success = true)
    (hdec : string_from_utf8 out.stdout = .ok s)
    (hjson : json.parse s = .ok (.Object ms))
    (hroot : ms.lookup "root" = some (.Str r)) :
    locate_manifest env run = .ok r := by
  simp only [locate_manifest, hrun, process_result, hsucc, Bool.true_eq_false,
    if_false, hdec, hjson, json_index, hroot, JsonValue.as_str]

theorem locate_manifest_success_exact_root_witness :
    locate_manifest envNone runP1 = .ok "/abs/path/Cargo.toml" :=
  locate_manifest_success_exact_root envNone runP1
    ⟨true, strBytes "\x7b\"root\":\"/abs/path/Cargo.toml\"\x7d", []⟩
    "\x7b\"root\":\"/abs/path/Cargo.toml\"\x7d" "/abs/path/Cargo.toml"
    [("root", .Str "/abs/path/Cargo.toml")] rfl rfl rfl rfl rfl

/-- C2 counterexample: with `CARGO` set to the empty string, the empty name
— not the default `cargo` — is the executable that runs: against a tool
whose answer distinguishes the two names, the call returns the answer of
the empty name, refuting the claim that an empty override falls back to
the default. -/
theorem empty_cargo_override_not_default :
    locate_manifest envEmptyOverride runDistinguishing = .ok "/from-empty-name" ∧
    locate_manifest envEmptyOverride runDistinguishing ≠ .ok "/from-default-cargo" := by
  constructor
  · rfl
  · intro h
    have e : locate_manifest envEmptyOverride runDistinguishing =
        Except.ok "/from-empty-name" := rfl
    have h2 := e.symm.trans h
    injection h2 with h3
    exact absurd h3 (by decide)

/-- C2 amended: the executable name used is the value of `CARGO` whenever
the variable is set — including when it is set to the empty string — and
the fixed default name `cargo` only when the variable is absent. -/
theorem cargo_name_used_for_run
    (env : String → Option String)
    (run : String → List String → Except IoError Output) :
    (env "CARGO" = none →
      locate_manifest env run = process_result (run "cargo" ["locate-project"])) ∧
    (∀ v, env "CARGO" = some v →
      locate_manifest env run = process_result (run v ["locate-project"])) := by
  constructor
  · intro h
    unfold locate_manifest cargo_name
    rw [h]
    rfl
  · intro v h
    unfold locate_manifest cargo_name
    rw [h]
    rfl

theorem cargo_name_used_for_run_witness :
    locate_manifest envEmptyOverride runDistinguishing =
      process_result (runDistinguishing "" ["locate-project"]) :=
  (cargo_name_used_for_run envEmptyOverride runDistinguishing).2 "" rfl

/-- C3: whenever the spawned process exits with a failure status,
`locate_manifest` returns `CargoExecution` carrying exactly the raw
captured standard-error bytes, verbatim. -/
theorem failure_status_yields_cargo_execution_stderr
    (env : String → Option String)
    (run : String → List String → Except IoError Output)
    (out : Output)
    (hrun : run (cargo_name env) ["locate-project"] = .ok out)
    (hfail : out.success = false) :
    locate_manifest env run = .error (.CargoExecution out.stderr) := by
  simp only [locate_manifest, hrun, process_result, hfail, if_true]

theorem failure_status_yields_cargo_execution_stderr_witness :
    locate_manifest envNone runP2 =
      .error (.CargoExecution (strBytes "error: could not find `Cargo.toml`")) :=
  failure_status_yields_cargo_execution_stderr envNone runP2
    ⟨false, [], strBytes "error: could not find `Cargo.toml`"⟩ rfl rfl

/-- C4: whenever the process exits successfully but its stdout bytes are
not valid UTF-8, `locate_manifest` returns `StringConversion` wrapping a
decode failure that retains exactly the original invalid bytes. -/
theorem invalid_utf8_yields_string_conversion
    (env : String → Option String)
    (run : String → List String → Except IoError Output)
    (out : Output)
    (hrun : run (cargo_name env) ["locate-project"] = .ok out)
    (hsucc : out.success = true)
    (hdec : utf8Decode out.stdout = none) :
    locate_manifest env run = .error (.StringConversion ⟨out.stdout⟩) ∧
    ∀ e, locate_manifest env run = .error (.StringConversion e) →
      e.bytes = out.stdout := by
  have hmain : locate_manifest env run = .error (.StringConversion ⟨out.stdout⟩) := by
    simp only [locate_manifest, hrun, process_result, hsucc, Bool.true_eq_false,
      if_false, string_from_utf8, hdec]
  refine ⟨hmain, ?_⟩
  intro e he
  rw [hmain] at he
  cases he
  rfl

theorem invalid_utf8_yields_string_conversion_witness :
    locate_manifest envNone runBadUtf8 =
      .error (.StringConversion ⟨[0xff, 0xfe]⟩) :=
  (invalid_utf8_yields_string_conversion envNone runBadUtf8
    ⟨true, [0xff, 0xfe], []⟩ rfl rfl rfl).1

/-- C5: whenever the process exits successfully and its stdout decodes as
text but that text is not valid JSON, `locate_manifest` returns `ParseJson`
wrapping the parser's failure detail. -/
theorem invalid_json_yields_parse_json
    (env : String → Option String)
    (run : String → List String → Except IoError Output)
    (out : Output) (s : String) (e : JsonError)
    (hrun : run (cargo_name env) ["locate-project"] = .ok out)
    (hsucc : out.success = true)
    (hdec : string_from_utf8 out.stdout = .ok s)
    (hjson : json.parse s = .error e) :
    locate_manifest env run = .error (.ParseJson e) := by
  simp only [locate_manifest, hrun, process_result, hsucc, Bool.true_eq_false,
    if_false, hdec, hjson]

theorem invalid_json_yields_parse_json_witness :
    locate_manifest envNone runP3 =
      .error (.ParseJson (.UnexpectedCharacter 'n')) :=
  invalid_json_yields_parse_json envNone runP3
    ⟨true, strBytes "not json", []⟩ "not json" (.UnexpectedCharacter 'n')
    rfl rfl rfl rfl

/-- C6: whenever stdout parses as a JSON object whose `root` member is
absent, or present but not a JSON string, `locate_manifest` returns the
detail-free `NoRoot` error — the same exact result in both cases. -/
theorem missing_or_nonstring_root_yields_no_root
    (env : String → Option String)
    (run : String → List String → Except IoError Output)
    (out : Output) (s : String) (ms : List (String × JsonValue))
    (hrun : run (cargo_name env) ["locate-project"] = .ok out)
    (hsucc : out.success = true)
    (hdec : string_from_utf8 out.stdout = .ok s)
    (hjson : json.parse s = .ok (.Object ms))
    (hroot : ms.lookup "root" = none ∨
      ∃ w, ms.lookup "root" = some w ∧ w.as_str = none) :
    locate_manifest env run = .error .NoRoot := by
  have hidx : (json_index (.Object ms) "root").as_str = none := by
    rcases hroot with h | ⟨w, hw, hws⟩
    · simp only [json_index, h, JsonValue.as_str]
    · simp only [json_index, hw, hws]
  simp only [locate_manifest, hrun, process_result, hsucc, Bool.true_eq_false,
    if_false, hdec, hjson, hidx]

theorem missing_or_nonstring_root_yields_no_root_witness :
    locate_manifest envNone runP5 = .error .NoRoot :=
  missing_or_nonstring_root_yields_no_root envNone runP5
    ⟨true, strBytes "\x7b\"root\": 123\x7d", []⟩ "\x7b\"root\": 123\x7d"
    [("root", .Number "123")] rfl rfl rfl rfl
    (Or.inr ⟨.Number "123", rfl, rfl⟩)

/-- C7: when `CARGO` is set to a non-empty executable name, that executable
— not the default `cargo` — is run with the single argument
`locate-project`; a stub at that name exiting 0 with output
`{"root":"/x/Cargo.toml"}` makes the call return `/x/Cargo.toml`. (Only the
overridden name's behaviour is constrained by the hypotheses, so the
default name is never consulted.) -/
theorem override_env_honored
    (env : String → Option String)
    (run : String → List String → Except IoError Output)
    (name : String)
    (hname : env "CARGO" = some name)
    (_hne : name ≠ "")
    (hrun : run name ["locate-project"] =
      .ok ⟨true, strBytes "\x7b\"root\":\"/x/Cargo.toml\"\x7d", []⟩) :
    locate_manifest env run = .ok "/x/Cargo.toml" := by
  unfold locate_manifest cargo_name
  rw [hname]
  simp only [Option.getD]
  rw [hrun]
  rfl

theorem override_env_honored_witness :
    locate_manifest envStubOverride runStub = .ok "/x/Cargo.toml" :=
  override_env_honored envStubOverride runStub "/opt/bin/cargo-stub"
    rfl (by decide) rfl

/-- C8: two invocations under an identical environment and identical
external-tool behaviour (same exit status, stdout and stderr for every
executable and argument list) produce equal results — the function keeps
no hidden state between calls. -/
theorem locate_manifest_deterministic
    (env1 env2 : String → Option String)
    (run1 run2 : String → List String → Except IoError Output)
    (henv : ∀ x, env1 x = env2 x)
    (hrun : ∀ n a, run1 n a = run2 n a) :
    locate_manifest env1 run1 = locate_manifest env2 run2 := by
  unfold locate_manifest cargo_name
  rw [henv "CARGO", hrun]

theorem locate_manifest_deterministic_witness :
    locate_manifest envNone runP1 = locate_manifest envNone runP1 :=
  locate_manifest_deterministic envNone envNone runP1 runP1
    (fun _ => rfl) (fun _ _ => rfl)

/-- C9: the exit-status check comes before any inspection of standard
output: whenever the process exits with failure status the result is
`CargoExecution` with the captured stderr, and two failing invocations
with the same stderr but different stdout — even stdout that is not valid
UTF-8 — produce the same result. -/
theorem failure_status_checked_first
    (env : String → Option String)
    (run1 run2 : String → List String → Except IoError Output)
    (out1 out2 : Output)
    (h1 : run1 (cargo_name env) ["locate-project"] = .ok out1)
    (h2 : run2 (cargo_name env) ["locate-project"] = .ok out2)
    (hf1 : out1.success = false)
    (hf2 : out2.success = false)
    (herr : out1.stderr = out2.stderr) :
    locate_manifest env run1 = .error (.CargoExecution out1.stderr) ∧
    locate_manifest env run1 = locate_manifest env run2 := by
  constructor
  · simp only [locate_manifest, h1, process_result, hf1, if_true]
  · simp only [locate_manifest, h1, h2, process_result, hf1, hf2, if_true, herr]

theorem failure_status_checked_first_witness :
    locate_manifest envNone runFailStdoutA =
      .error (.CargoExecution (strBytes "boom")) ∧
    locate_manifest envNone runFailStdoutA =
      locate_manifest envNone runFailStdoutB :=
  failure_status_checked_first envNone runFailStdoutA runFailStdoutB
    ⟨false, strBytes "some valid stdout", strBytes "boom"⟩
    ⟨false, [0xff], strBytes "boom"⟩ rfl rfl rfl rfl rfl

/-- The `json` crate's `Index<&str>` yields `Null` on any non-object
receiver. -/
theorem json_index_non_object (v : JsonValue) (key : String)
    (h : ∀ ms, v ≠ .Object ms) : json_index v key = .Null := by
  cases v <;> first
    | rfl
    | exact absurd rfl (h _)

/-- C10: whenever stdout parses as valid JSON whose top-level value is not
an object (a number, string, array, boolean or null), `locate_manifest`
returns `NoRoot` rather than `ParseJson`: indexing a non-object by `root`
yields `Null`, which is not a string. -/
theorem non_object_json_yields_no_root
    (env : String → Option String)
    (run : String → List String → Except IoError Output)
    (out : Output) (s : String) (v : JsonValue)
    (hrun : run (cargo_name env) ["locate-project"] = .ok out)
    (hsucc : out.success = true)
    (hdec : string_from_utf8 out.stdout = .ok s)
    (hjson : json.parse s = .ok v)
    (hnotobj : ∀ ms, v ≠ .Object ms) :
    locate_manifest env run = .error .NoRoot := by
  have hidx : (json_index v "root").as_str = none := by
    rw [json_index_non_object v "root" hnotobj]
    rfl
  simp only [locate_manifest, hrun, process_result, hsucc, Bool.true_eq_false,
    if_false, hdec, hjson, hidx]

theorem non_object_json_yields_no_root_witness :
    locate_manifest envNone runNumber = .error .NoRoot :=
  non_object_json_yields_no_root envNone runNumber
    ⟨true, strBytes "42", []⟩ "42" (.Number "42") rfl rfl rfl rfl
    (fun _ h => JsonValue.noConfusion h)
